import Mathlib

/-!
Shallow embedding of `src/join.py` (a single generic `join` operation for
sequence-like, update-able, and plain-iterable container families) together
with proofs about its joining strategies.

Python lists are modelled as `List α`; Python strings as `List Char`;
update-able collections (`dict`-like) are modelled abstractly through their
`update` operation; the lazy iterator-chaining fallback is modelled by the
fully-consumed list of elements it yields.  Exceptions are modelled with
`Except`.
-/

namespace JoinPy

/-! ### Sequence joiner: `join_lists` (src/join.py lines 115-142)

`join_lists(joiner, result, items)` alternately appends `joiner` and each
item to `result`.  When `len(items) > 100` it pre-sizes: it appends
`count` placeholder (`None`) entries and then writes `joiner` and each item
into their slot ranges with slice assignment; otherwise it grows `result`
incrementally with `extend`.  The placeholder value `None` is modelled as an
explicit extra argument `ph`. -/

/-- The incremental path of `join_lists` (the `else` branch, lines 134-141):
for each item, `result.extend(joiner); result.extend(item)`. -/
def joinListsExtend (joiner result : List α) (items : List (List α)) : List α :=
  items.foldl (fun acc item => acc ++ joiner ++ item) result

/-- Python list slice assignment `buf[a:b] = seq`: the (clamped) slice from
`a` to `b` is removed and the elements of `seq` are inserted in its place. -/
def spliceAssign (buf : List α) (a b : Nat) (seq : List α) : List α :=
  buf.take a ++ seq ++ buf.drop b

/-- `count = sum(len(item) for item in items) + li * lj` (line 127). -/
def presizeCount (joiner : List α) (items : List (List α)) : Nat :=
  (items.map List.length).sum + items.length * joiner.length

/-- One iteration of the pre-size loop (lines 130-133): splice `joiner` at
`index`, splice the item right after it, advance `index`. -/
def presizeStep (joiner : List α) (st : List α × Nat) (item : List α) : List α × Nat :=
  let lj := joiner.length
  let buf := spliceAssign st.1 st.2 (st.2 + lj) joiner
  let buf2 := spliceAssign buf (st.2 + lj) (st.2 + lj + item.length) item
  (buf2, st.2 + lj + item.length)

/-- The pre-size-and-splice path of `join_lists` (lines 120-133):
`index = len(result)`, `result.extend([None] * count)`, then the splice
loop.  `ph` is the placeholder written by `[None] * count`. -/
def joinListsPresize (joiner result : List α) (items : List (List α)) (ph : α) : List α :=
  let init := result ++ List.replicate (presizeCount joiner items) ph
  (items.foldl (presizeStep joiner) (init, result.length)).1

/-- `join_lists` itself: the path is chosen by `li > 100` (line 120). -/
def join_lists (joiner result : List α) (items : List (List α)) (ph : α) : List α :=
  if 100 < items.length then joinListsPresize joiner result items ph
  else joinListsExtend joiner result items

/-- Splicing `seg` into a buffer `acc ++ placeholders` exactly at the end of
`acc` consumes `seg.length` placeholders and appends `seg` to `acc`. -/
theorem spliceAssign_aligned (acc seg : List α) (n : Nat) (ph : α) :
    spliceAssign (acc ++ List.replicate n ph) acc.length (acc.length + seg.length) seg
      = acc ++ seg ++ List.replicate (n - seg.length) ph := by
  unfold spliceAssign
  rw [List.take_left, List.drop_append, List.drop_replicate]

/-- The pre-size loop, started on a buffer holding `acc` followed by exactly
as many placeholders as the loop will write, produces the same contents as
the incremental path. -/
theorem presize_loop (joiner : List α) (ph : α) :
    ∀ (items : List (List α)) (acc : List α),
      (items.foldl (presizeStep joiner)
          (acc ++ List.replicate (presizeCount joiner items) ph, acc.length)).1
        = joinListsExtend joiner acc items := by
  intro items
  induction items with
  | nil =>
    intro acc
    simp [presizeCount, joinListsExtend]
  | cons item rest ih =>
    intro acc
    have hcount : presizeCount joiner (item :: rest)
        = joiner.length + (item.length + presizeCount joiner rest) := by
      simp [presizeCount, Nat.succ_mul]
      ring
    have hm : presizeCount joiner (item :: rest) - joiner.length - item.length
        = presizeCount joiner rest := by
      rw [hcount]; omega
    have hstep :
        presizeStep joiner
            (acc ++ List.replicate (presizeCount joiner (item :: rest)) ph, acc.length) item
          = ((acc ++ joiner ++ item) ++ List.replicate (presizeCount joiner rest) ph,
              (acc ++ joiner ++ item).length) := by
      simp only [presizeStep]
      rw [spliceAssign_aligned acc joiner _ ph]
      have e2 :
          spliceAssign
              (acc ++ joiner ++
                List.replicate (presizeCount joiner (item :: rest) - joiner.length) ph)
              (acc.length + joiner.length) (acc.length + joiner.length + item.length) item
            = acc ++ joiner ++ item ++
                List.replicate
                  (presizeCount joiner (item :: rest) - joiner.length - item.length) ph := by
        simpa [List.append_assoc, List.length_append] using
          spliceAssign_aligned (acc ++ joiner) item
            (presizeCount joiner (item :: rest) - joiner.length) ph
      rw [e2, hm]
      simp only [Prod.mk.injEq]
      constructor
      · simp [List.append_assoc]
      · simp [List.length_append, Nat.add_assoc]
    rw [List.foldl_cons, hstep]
    have hext : joinListsExtend joiner acc (item :: rest)
        = joinListsExtend joiner (acc ++ joiner ++ item) rest := rfl
    rw [hext]
    exact ih (acc ++ joiner ++ item)

/-- The two paths of `join_lists` agree: pre-size-and-splice equals the
incremental extend path, for every joiner, initial accumulator, item list
and placeholder value. -/
theorem joinListsPresize_eq_extend (joiner result : List α) (items : List (List α)) (ph : α) :
    joinListsPresize joiner result items ph = joinListsExtend joiner result items :=
  presize_loop joiner ph items result

/-- `join_lists` always computes the incremental-path contents, whichever
branch the `li > 100` threshold selects. -/
theorem join_lists_eq_extend (joiner result : List α) (items : List (List α)) (ph : α) :
    join_lists joiner result items ph = joinListsExtend joiner result items := by
  unfold join_lists
  split
  · exact joinListsPresize_eq_extend joiner result items ph
  · rfl

/-! ### Sequence strategy of `join_helper` (src/join.py lines 62-86)

The prototype is the joiner if one was supplied, else the first item.
Three sub-strategies: built-in `tuple`/`list` (via `join_lists` plus a
conversion back to the prototype's declared type), `basestring`, and the
generic `reduce` over the type's own `__add__`. -/

/-- Python `sep.join(strings)`: the separator between consecutive strings,
nothing for the empty list.  Strings are modelled as `List Char`. -/
def pyStrJoin (sep : List Char) : List (List Char) → List Char
  | [] => []
  | [x] => x
  | x :: y :: xs => x ++ sep ++ pyStrJoin sep (y :: xs)

/-- The `basestring` sub-strategy (lines 78-80): if no joiner was given the
joiner becomes `''`; the result is `first + joiner + joiner.join(items)`. -/
def joinString (j : Option (List Char)) (first : List Char) (items : List (List Char)) :
    List Char :=
  let joiner := j.getD []
  first ++ joiner ++ pyStrJoin joiner items

/-- The generic-sequence sub-strategy (lines 81-86):
`reduce(result_type.__add__, (item if no_joiner else joiner + item for item in items), first)`,
for a type whose own concatenation is `add`. -/
def joinGenericSeq (add : σ → σ → σ) (j : Option σ) (first : σ) (items : List σ) : σ :=
  items.foldl
    (fun acc item => add acc (match j with | none => item | some jv => add jv item)) first

/-- Result of the built-in `tuple`/`list` sub-strategy: either the
accumulator converted back to the prototype's declared type, or — when that
conversion fails — a plain tuple or plain list of the accumulator. -/
inductive SeqResult (β : Type v) (α : Type u) where
  | narrowed (b : β)
  | plainTuple (l : List α)
  | plainList (l : List α)
deriving DecidableEq, Repr

/-- The `try: return result_type(result) / except:` block (lines 70-77):
`convert` models calling the prototype's declared type on the accumulator,
returning `none` when that constructor raises. -/
def seqConvert (convert : List α → Option β) (isTuple : Bool) (result : List α) :
    SeqResult β α :=
  match convert result with
  | some b => .narrowed b
  | none => if isTuple then .plainTuple result else .plainList result

/-- The whole built-in `tuple`/`list` sub-strategy (lines 67-77):
`join_lists([] if no_joiner else joiner, list(first), items)` followed by
the conversion step. -/
def joinSeqBuiltin (convert : List α → Option β) (isTuple : Bool)
    (j : Option (List α)) (first : List α) (items : List (List α)) (ph : α) :
    SeqResult β α :=
  seqConvert convert isTuple (join_lists (j.getD []) first items ph)

/-! ### Unordered strategy (src/join.py lines 87-92 and 110-112)

`join_by_update(result_type(), joiner, first, *items)` — note that `joiner`
is passed through unconditionally, so when no joiner was supplied the
operand in the joiner slot is the non-iterable sentinel `object()`. -/

/-- An operand handed to `update`: either an iterable value or the sentinel
default of `join`'s `joiner` parameter. -/
inductive Operand (ι : Type u) where
  | sentinel
  | iterable (x : ι)
deriving DecidableEq, Repr

/-- One `result.update(item)` call (line 111): updating with the
non-iterable sentinel raises `TypeError`. -/
def pyUpdate (upd : δ → ι → δ) (acc : δ) : Operand ι → Except Unit δ
  | .sentinel => .error ()
  | .iterable x => .ok (upd acc x)

/-- `join_by_update` (lines 110-112): fold `update` over the operands,
propagating the first raised error. -/
def join_by_update (upd : δ → ι → δ) (result : δ) (ops : List (Operand ι)) :
    Except Unit δ :=
  ops.foldlM (pyUpdate upd) result

/-- The update branch of `join_helper` for a prototype with `update` but no
`union` (line 91): `join_by_update(result_type(), joiner, first, *items)`.
`empty` models `result_type()`; the joiner slot holds the sentinel when no
joiner was supplied. -/
def joinByUpdateFamily (upd : δ → ι → δ) (empty : δ) (j : Option ι) (first : ι)
    (items : List ι) : Except Unit δ :=
  join_by_update upd empty
    ((match j with | some jv => Operand.iterable jv | none => Operand.sentinel)
      :: Operand.iterable first :: items.map Operand.iterable)

/-! ### Iterator-chaining fallback (src/join.py lines 93-105)

`chain(iter(first), *(to_chain if no_joiner else chain(*izip(tee(iter(joiner),
len(to_chain)), to_chain))))`.  Iterators are modelled by the list of
elements they yield when fully consumed: `tee(it, n)` yields the same
element sequence on each of its `n` branches (it buffers), `izip` is `zip`,
and `chain` over a sequence of iterators is concatenation. -/

/-- `tee(iter(joiner), n)`: `n` branches, each yielding `joiner`'s elements. -/
def pyTee (n : Nat) (it : List ε) : List (List ε) :=
  List.replicate n it

/-- The chained iterator produced by the fallback branch, as the list of
elements obtained by fully consuming it. -/
def chainFallback (j : Option (List ε)) (first : List ε) (items : List (List ε)) :
    List ε :=
  let to_chain := items
  first ++
    (match j with
      | none => to_chain.flatten
      | some jv => (((pyTee to_chain.length jv).zip to_chain).map
          (fun p => p.1 ++ p.2)).flatten)

/-! ### Dispatcher: `join` (src/join.py lines 43-54)

`join(items, joiner=object())` checks the joiner against the sentinel
default, tests `not items`, and otherwise calls `join_helper(joiner, *items)`.
The truth test `not items` is `False` for every iterator object, even an
exhausted one, so only a realized (sized) collection can take the empty
branches. -/

/-- The `items` argument: a realized, sized collection or a one-shot
iterator object (whose remaining elements are `l`). -/
inductive ItemsArg (ι : Type u) where
  | realized (l : List ι)
  | iterator (l : List ι)

/-- Python truth value of the `items` object: empty sized collections are
falsy; iterator objects are always truthy. -/
def itemsTruthy : ItemsArg ι → Bool
  | .realized l => !l.isEmpty
  | .iterator _ => true

/-- The elements obtained by unpacking `*items`. -/
def itemsList : ItemsArg ι → List ι
  | .realized l => l
  | .iterator l => l

/-- Errors raised by the dispatcher itself. -/
inductive JoinErr where
  | invalidArgument
  | missingFirstItem
deriving DecidableEq, Repr

/-- A dispatcher outcome: the fresh empty instance `type(joiner)()` of the
joiner's type, or the value produced by `join_helper`. -/
inductive JoinOut (β : Type v) (ρ : Type u) where
  | fresh (s : List β)
  | result (r : ρ)

/-- `join` (lines 43-54) with `join_helper` abstracted as `helper`: raise
`TypeError` if no joiner and `not items`; with a joiner, return
`type(joiner)()` if `not items`; otherwise call `join_helper(joiner, *items)`,
which itself raises `TypeError` if unpacking supplies no `first` argument.
The joiner is modelled as an optional list-like value. -/
def joinDispatch (helper : ι → List ι → ρ) (j : Option (List β)) (items : ItemsArg ι) :
    Except JoinErr (JoinOut β ρ) :=
  match j with
  | none =>
    if itemsTruthy items then
      match itemsList items with
      | [] => .error .missingFirstItem
      | first :: rest => .ok (.result (helper first rest))
    else .error .invalidArgument
  | some _ =>
    if itemsTruthy items then
      match itemsList items with
      | [] => .error .missingFirstItem
      | first :: rest => .ok (.result (helper first rest))
    else .ok (.fresh [])

/-! ### Mutation-threaded models

To express that `join` never mutates its `joiner` argument, the two
strategies that perform any in-place mutation at all (`join_lists` writes
into the accumulator list; `join_by_update` writes into the freshly
constructed accumulator) are re-modelled with every mutable object
explicit in a threaded state whose first component is the joiner object.
Each Python statement maps to one state update; the theorem that the
joiner component is returned unchanged (and the result component agrees
with the pure model) is the frame property. -/

/-- `join_lists` with the joiner object threaded through every loop
iteration alongside the buffer it could have written to. -/
def join_lists_mut (joiner result : List α) (items : List (List α)) (ph : α) :
    List α × List α :=
  if 100 < items.length then
    let init := result ++ List.replicate (presizeCount joiner items) ph
    let fin := items.foldl
      (fun (st : (List α × List α) × Nat) item =>
        let j := st.1.1
        let buf := spliceAssign st.1.2 st.2 (st.2 + j.length) j
        let buf2 := spliceAssign buf (st.2 + j.length) (st.2 + j.length + item.length) item
        ((j, buf2), st.2 + j.length + item.length))
      ((joiner, init), result.length)
    fin.1
  else
    items.foldl (fun (st : List α × List α) item => (st.1, st.2 ++ st.1 ++ item))
      (joiner, result)

/-- `join_by_update(result_type(), joiner, first, *items)` (the with-joiner
case) with the joiner object threaded through the fold. -/
def join_by_update_mut (upd : δ → ι → δ) (joiner first : ι) (items : List ι)
    (empty : δ) : ι × δ :=
  (joiner :: first :: items).foldl (fun (st : ι × δ) op => (st.1, upd st.2 op))
    (joiner, empty)

theorem join_lists_mut_presize_loop (joiner : List α) :
    ∀ (items : List (List α)) (buf : List α) (idx : Nat),
      items.foldl
        (fun (st : (List α × List α) × Nat) item =>
          let j := st.1.1
          let b := spliceAssign st.1.2 st.2 (st.2 + j.length) j
          let b2 := spliceAssign b (st.2 + j.length) (st.2 + j.length + item.length) item
          ((j, b2), st.2 + j.length + item.length))
        ((joiner, buf), idx)
      = ((joiner, (items.foldl (presizeStep joiner) (buf, idx)).1),
          (items.foldl (presizeStep joiner) (buf, idx)).2) := by
  intro items
  induction items with
  | nil => intro buf idx; rfl
  | cons item rest ih =>
    intro buf idx
    rw [List.foldl_cons, List.foldl_cons]
    exact ih _ _

theorem join_lists_mut_extend_loop (joiner : List α) :
    ∀ (items : List (List α)) (result : List α),
      items.foldl (fun (st : List α × List α) item => (st.1, st.2 ++ st.1 ++ item))
          (joiner, result)
        = (joiner, joinListsExtend joiner result items) := by
  intro items
  induction items with
  | nil => intro result; rfl
  | cons item rest ih =>
    intro result
    rw [List.foldl_cons]
    exact ih _

theorem join_lists_mut_frame (joiner result : List α) (items : List (List α)) (ph : α) :
    join_lists_mut joiner result items ph = (joiner, join_lists joiner result items ph) := by
  unfold join_lists_mut join_lists
  split
  · dsimp only
    rw [join_lists_mut_presize_loop]
    rfl
  · rw [join_lists_mut_extend_loop]

theorem join_by_update_mut_frame (upd : δ → ι → δ) (joiner first : ι) (items : List ι)
    (empty : δ) :
    join_by_update_mut upd joiner first items empty
      = (joiner, items.foldl upd (upd (upd empty joiner) first)) := by
  unfold join_by_update_mut
  rw [List.foldl_cons, List.foldl_cons]
  generalize upd (upd empty joiner) first = d
  induction items generalizing d with
  | nil => rfl
  | cons item rest ih =>
    rw [List.foldl_cons, List.foldl_cons]
    exact ih _

/-! ### Supporting lemmas for the claim theorems -/

/-- Concatenating onto `pyStrJoin` with the empty separator is the plain
left fold of concatenation. -/
theorem append_pyStrJoin_nil :
    ∀ (items : List (List Char)) (first : List Char),
      first ++ pyStrJoin [] items = items.foldl (fun a b => a ++ b) first := by
  intro items
  induction items with
  | nil =>
    intro first
    simp [pyStrJoin]
  | cons x xs ih =>
    intro first
    cases xs with
    | nil => simp [pyStrJoin]
    | cons y ys =>
      simp only [pyStrJoin, List.append_nil]
      rw [← List.append_assoc]
      exact ih (first ++ x)

/-- `join_by_update` over iterable operands never raises and folds `upd`. -/
theorem join_by_update_iterables (upd : δ → ι → δ) :
    ∀ (l : List ι) (d : δ),
      join_by_update upd d (l.map Operand.iterable) = .ok (l.foldl upd d) := by
  intro l
  induction l with
  | nil => intro d; rfl
  | cons x xs ih =>
    intro d
    simpa [join_by_update, List.foldlM_cons, pyUpdate] using ih (upd d x)

/-! ### Claim theorems -/

/-- C1: the claim says that for a single item `join(items, j)` returns
`items[0]` with no joiner appended; the string sub-strategy instead
computes `first + joiner + joiner.join(())`, so `join(['a'], '-')` yields
`'a-'`, not `'a'`.  This evaluates the embedded string path at that
failing input. -/
theorem joinString_single_item_appends_joiner :
    joinString (some ['-']) ['a'] [] = ['a', '-'] ∧
      joinString (some ['-']) ['a'] [] ≠ ['a'] := by
  constructor
  · rfl
  · decide

/-- C2: the pre-size-and-splice path and the incremental extend path of
`join_lists` produce element-for-element identical contents for every
joiner, initial accumulator, item list and placeholder, and `join_lists`
itself always equals the incremental path, so the 100-item threshold is
not observable in the result. -/
theorem join_lists_threshold_unobservable (α : Type) :
    ∀ (joiner result : List α) (items : List (List α)) (ph : α),
      joinListsPresize joiner result items ph = joinListsExtend joiner result items ∧
        join_lists joiner result items ph = joinListsExtend joiner result items :=
  fun joiner result items ph =>
    ⟨joinListsPresize_eq_extend joiner result items ph,
      join_lists_eq_extend joiner result items ph⟩

/-- C3: the claim says that with an update-capable, non-union prototype and
no joiner given, no joiner operand participates in the fold and the call
succeeds; the code instead passes the non-iterable sentinel as the first
`update` operand, so every no-joiner call raises.  With a joiner given,
the fold applies `update` with the joiner, then the first item, then each
remaining item, in that order, as claimed. -/
theorem joinByUpdateFamily_sentinel_raises (δ ι : Type) (upd : δ → ι → δ)
    (empty : δ) (first : ι) (items : List ι) :
    joinByUpdateFamily upd empty none first items = .error () ∧
      ∀ jv, joinByUpdateFamily upd empty (some jv) first items
        = .ok (items.foldl upd (upd (upd empty jv) first)) := by
  constructor
  · rfl
  · intro jv
    have h := join_by_update_iterables upd items (upd (upd empty jv) first)
    simpa [joinByUpdateFamily, join_by_update, List.foldlM_cons, pyUpdate] using h

/-- C4: for a prototype with neither sequence nor update capability, fully
consuming the lazy result of `join([a, b], joiner=j)` yields the elements
of `a`, then the elements of `j`, then the elements of `b`, in order. -/
theorem chainFallback_two_items (ε : Type) (a j b : List ε) :
    chainFallback (some j) a [b] = a ++ j ++ b := by
  simp [chainFallback, pyTee, List.append_assoc]

/-- C5: with no joiner supplied and an empty (realized) items collection,
`join` raises `TypeError` ("No joiner and nothing to join") and returns
nothing. -/
theorem joinDispatch_no_joiner_empty_items (β ι ρ : Type) (helper : ι → List ι → ρ) :
    joinDispatch (β := β) helper none (ItemsArg.realized []) = .error .invalidArgument :=
  rfl

/-- C6: with a joiner given and empty items, `join` returns
`type(joiner)()`: a freshly constructed empty instance of the joiner's
type.  The returned value is `[]` for every joiner, so it is built by the
no-argument constructor, shares nothing with the joiner, and mutating it
cannot affect the joiner. -/
theorem joinDispatch_empty_items_fresh_empty (β ι ρ : Type) (helper : ι → List ι → ρ)
    (j : List β) :
    joinDispatch helper (some j) (ItemsArg.realized []) = .ok (.fresh ([] : List β)) :=
  rfl

/-- C7: with the joiner omitted, each of the three sequence sub-strategies
(built-in list/tuple via `join_lists`, string, generic concatenation fold)
returns the plain concatenation `items[0] + items[1] + ... + items[-1]`
with no separator inserted. -/
theorem join_no_joiner_plain_concatenation (α : Type) :
    (∀ (first : List α) (items : List (List α)) (ph : α),
        join_lists [] first items ph = items.foldl (· ++ ·) first) ∧
      (∀ (first : List Char) (items : List (List Char)),
        joinString none first items = items.foldl (· ++ ·) first) ∧
      (∀ (σ : Type) (add : σ → σ → σ) (first : σ) (items : List σ),
        joinGenericSeq add none first items = items.foldl add first) := by
  refine ⟨?_, ?_, ?_⟩
  · intro first items ph
    rw [join_lists_eq_extend]
    simp only [joinListsExtend, List.append_nil]
  · intro first items
    have h := append_pyStrJoin_nil items first
    simpa [joinString] using h
  · intro σ add first items
    rfl

/-- C8: when converting the concatenated accumulator back to the
prototype's declared type fails, the sequence strategy does not raise: it
returns the accumulator as a plain tuple if the prototype was tuple-like,
otherwise as a plain list, with the fully joined contents. -/
theorem joinSeqBuiltin_conversion_fallback (α β : Type) (convert : List α → Option β)
    (isTuple : Bool) (j : Option (List α)) (first : List α) (items : List (List α))
    (ph : α) (h : convert (join_lists (j.getD []) first items ph) = none) :
    joinSeqBuiltin convert isTuple j first items ph
      = if isTuple then SeqResult.plainTuple (joinListsExtend (j.getD []) first items)
        else SeqResult.plainList (joinListsExtend (j.getD []) first items) := by
  unfold joinSeqBuiltin seqConvert
  rw [h, join_lists_eq_extend]

/-- C8 witness: a conversion that always fails, on a tuple-like prototype,
falls back to the plain-tuple result. -/
theorem joinSeqBuiltin_conversion_fallback_witness :
    (fun _ : List Nat => (none : Option Nat))
        (join_lists ((some [0]).getD []) [1] [[2]] 0) = none ∧
      joinSeqBuiltin (fun _ : List Nat => (none : Option Nat)) true (some [0]) [1] [[2]] 0
        = if true then SeqResult.plainTuple (joinListsExtend [0] [1] [[2]])
          else SeqResult.plainList (joinListsExtend [0] [1] [[2]]) :=
  ⟨rfl, joinSeqBuiltin_conversion_fallback Nat Nat (fun _ => none) true (some [0])
    [1] [[2]] 0 rfl⟩

/-- C9: neither mutating strategy writes to the joiner: with every mutable
object threaded explicitly, `join_lists` (both branches) and
`join_by_update` return the joiner object unchanged alongside the same
result as the pure models. -/
theorem join_joiner_not_mutated (α δ ι : Type) (upd : δ → ι → δ) :
    (∀ (joiner result : List α) (items : List (List α)) (ph : α),
        join_lists_mut joiner result items ph
          = (joiner, join_lists joiner result items ph)) ∧
      (∀ (joiner first : ι) (items : List ι) (empty : δ),
        join_by_update_mut upd joiner first items empty
          = (joiner, items.foldl upd (upd (upd empty joiner) first))) :=
  ⟨fun joiner result items ph => join_lists_mut_frame joiner result items ph,
    fun joiner first items empty => join_by_update_mut_frame upd joiner first items empty⟩

/-- C10: an exhausted one-shot iterator passed as `items` is truthy, so
with a joiner given the empty-items branch is not taken; unpacking
`*items` then supplies no `first` argument and the call raises instead of
returning an empty instance of the joiner's type. -/
theorem joinDispatch_exhausted_iterator_raises (β ι ρ : Type) (helper : ι → List ι → ρ)
    (j : List β) :
    joinDispatch helper (some j) (ItemsArg.iterator ([] : List ι))
        = .error .missingFirstItem ∧
      itemsTruthy (ItemsArg.iterator ([] : List ι)) = true :=
  ⟨rfl, rfl⟩

end JoinPy
